import Mathlib

/-!
Verification of the task registration and dispatch core of `doot.py`
(the `TaskManager` revision, which is the current code of the repository).

The development shallowly embeds the Python code: Python objects become
plain Lean data, the mutable `TaskManager` becomes explicit state passing,
`raise` becomes `Except`, and the observable output of `exec` (calls to the
logging sink, calls to `sys.exit`, invocations of task callables) is
collected into an explicit result record.  External library behaviour that
the code relies on (Python `str.replace`, `dict` insertion, `argparse`
option parsing for the flag kinds used by tasks, `shlex.split` in
non-POSIX mode) is modelled directly from the documented/observed
semantics of those libraries, at the level of detail the code exercises.
-/

namespace Doot

/-! ## Python `str.replace`

`str.replace(old, new)` scans left to right and replaces non-overlapping
occurrences of `old`.  The fuel argument is set to the string length by the
wrapper; every recursive call consumes at least one character when the
pattern is non-empty (the only patterns used by the code are `"__"` and
`"_"`). -/

def pyReplaceAux : Nat → List Char → List Char → List Char → List Char
  | 0, s, _, _ => s
  | _ + 1, [], _, _ => []
  | fuel + 1, c :: rest, pat, rep =>
    if pat ≠ [] ∧ List.isPrefixOf pat (c :: rest) then
      rep ++ pyReplaceAux fuel (List.drop pat.length (c :: rest)) pat rep
    else
      c :: pyReplaceAux fuel rest pat rep

def pyReplace (s pat rep : String) : String :=
  String.mk (pyReplaceAux s.length s.data pat.data rep.data)

/-- `doot.py` line 124: `name or func.__name__.replace("__", ":").replace("_", "-")`
(the branch where no explicit name is given). -/
def deriveTaskName (funcName : String) : String :=
  pyReplace (pyReplace funcName "__" ":") "_" "-"

/-! ## Python values, namespaces and association lists -/

/-- The Python values that flow through the parsed-options namespace in the
scenarios the tasks of this code base exercise. -/
inductive PyVal where
  | vnone
  | vstr (s : String)
  | vbool (b : Bool)
  deriving DecidableEq, Repr

/-- An `argparse.Namespace`: attribute names to values.  Modelled as an
insertion-ordered association list, matching Python attribute-dict
semantics (setting an existing key overwrites in place). -/
abbrev PyNamespace := List (String × PyVal)

/-- Set/overwrite a key in an insertion-ordered association list.  This is
the update semantics of a Python `dict` / object attribute: an existing key
keeps its position and gets the new value, a new key is appended. -/
def assocSet {α : Type} : List (String × α) → String → α → List (String × α)
  | [], k, v => [(k, v)]
  | (k', v') :: rest, k, v =>
    if k' = k then (k, v) :: rest else (k', v') :: assocSet rest k v

/-- Lookup in an association list (first match). -/
def assocGet {α : Type} : List (String × α) → String → Option α
  | [], _ => none
  | (k', v') :: rest, k => if k' = k then some v' else assocGet rest k

/-! ## The argparse option model

The tasks of this code base declare optional flags with the `store` and
`store_true` actions.  `parseLoop` models how `argparse`'s
`parse_known_args` treats an argument vector against such declarations:
tokens are scanned left to right; a token equal to one of a declared
option's flag strings is consumed according to its action (`store`
additionally consumes the following token as the value, erroring out when
it is missing); every other token is collected, verbatim and in order,
into the list of unrecognized arguments.  Abbreviated flags and `--flag=v`
syntax are not used by the code under verification and are not modelled. -/

inductive ArgAction where
  | store
  | storeTrue
  deriving DecidableEq, Repr

structure ArgSpec where
  flags : List String
  action : ArgAction
  dest : String
  default : PyVal
  deriving DecidableEq, Repr

/-- Find the declared option (if any) one of whose flag strings is `tok`. -/
def findSpec (decls : List ArgSpec) (tok : String) : Option ArgSpec :=
  decls.find? (fun d => d.flags.contains tok)

/-- The namespace before parsing starts: every declared option's
destination holds its default (`argparse` sets all defaults up front). -/
def initNs (decls : List ArgSpec) : PyNamespace :=
  decls.map (fun d => (d.dest, d.default))

def parseLoop : Nat → List ArgSpec → List String → PyNamespace →
    Except String (PyNamespace × List String)
  | _, _, [], ns => .ok (ns, [])
  | 0, _, _ :: _, _ => .error "parse fuel exhausted"
  | fuel + 1, decls, tok :: rest, ns =>
    match findSpec decls tok with
    | some spec =>
      match spec.action with
      | .storeTrue => parseLoop fuel decls rest (assocSet ns spec.dest (.vbool true))
      | .store =>
        match rest with
        | [] => .error (s!"argument {tok}: expected one argument")
        | v :: rest2 => parseLoop fuel decls rest2 (assocSet ns spec.dest (.vstr v))
    | none =>
      match parseLoop fuel decls rest ns with
      | .ok (ns2, ex) => .ok (ns2, tok :: ex)
      | .error e => .error e

/-! ## Tasks -/

/-- A Python callable as the decorator sees it: its `__name__`, its
`__doc__`, and the number of parameters `inspect.signature` reports.  The
body is opaque; invocations are recorded as `Invocation` values. -/
structure PyFunc where
  name : String
  doc : Option String
  numParams : Nat
  deriving DecidableEq, Repr

/-- `doot.py` lines 756-761. -/
structure InvalidArgumentCountException where
  name : String
  num_args : Nat
  deriving DecidableEq, Repr

/-- The message the exception is constructed with (`doot.py` lines 758-760). -/
def InvalidArgumentCountException.message (e : InvalidArgumentCountException) : String :=
  s!"task `{e.name}` was defined to take {e.num_args} " ++
    "arguments, but must be defined to take 0, 1, or 2 arguments"

/-- `Task` (`doot.py` lines 650-671): the fields stored by `Task.__init__`.
The per-task `argparse` parser is represented by the list of option
declarations registered on it. -/
structure Task where
  allow_extra : Bool
  name : String
  func : PyFunc
  num_args : Nat
  doc : String
  parserArgs : List ArgSpec
  deriving DecidableEq, Repr

/-- `Task.validate_and_get_num_args` (`doot.py` lines 673-679): raises
`InvalidArgumentCountException(name, num_args)` when the callable declares
more than 2 parameters, otherwise returns the count. -/
def validate_and_get_num_args (name : String) (numParams : Nat) :
    Except InvalidArgumentCountException Nat :=
  if numParams > 2 then .error ⟨name, numParams⟩ else .ok numParams

/-- `Task.short_doc` (`doot.py` lines 681-686): first line of the doc,
with a single trailing period stripped. -/
def Task.short_doc (t : Task) : String :=
  let d := (t.doc.splitOn "\n").headD ""
  if d.endsWith "." then d.dropRight 1 else d

/-- A record of how a task callable was invoked (`Task.__call__` calls
`func()`, `func(opt)` or `func(opt, extra)`). -/
inductive Invocation where
  | zero
  | one (opt : PyNamespace)
  | two (opt : PyNamespace) (extra : List String)
  deriving DecidableEq, Repr

/-- `Task.__call__` (`doot.py` lines 691-702): a `None` extra list is
replaced by `[]`, then the callable is invoked according to `num_args`. -/
def Task.call (t : Task) (opt : PyNamespace) (extra : Option (List String)) : Invocation :=
  let extra := extra.getD []
  if t.num_args = 2 then .two opt extra
  else if t.num_args = 1 then .one opt
  else .zero

/-! ## The task manager -/

/-- The mutable state of a `TaskManager`: the `tasks` dict (insertion
ordered), the names of the sub-parsers added to the parser tree, and the
logging sink (opaque, identified by a token so that frame conditions can
say it is untouched). -/
structure TaskManager where
  tasks : List (String × Task)
  parserNames : List String
  logfuncId : Nat
  deriving DecidableEq, Repr

/-- `TaskManager.task` (`doot.py` lines 123-194), applied to a callable:
derive the name, add a sub-parser for it, build the `Task` (whose
constructor validates the arity and can raise), store it in the `tasks`
dict, and hand the callable itself back.  On the error path the raised
exception propagates to the decoration site.  The registration of the
declared arguments onto the parser is represented by storing them in the
task's `parserArgs`. -/
def TaskManager.task (st : TaskManager) (arguments : List ArgSpec)
    (name : Option String) (allow_extra : Bool) (func : PyFunc) :
    Except InvalidArgumentCountException (PyFunc × TaskManager) :=
  let task_name := name.getD (deriveTaskName func.name)
  match validate_and_get_num_args task_name func.numParams with
  | .error e => .error e
  | .ok n =>
    let t : Task :=
      { allow_extra := allow_extra, name := task_name, func := func,
        num_args := n, doc := func.doc.getD "", parserArgs := arguments }
    .ok (func, { st with
      tasks := assocSet st.tasks task_name t,
      parserNames := st.parserNames ++ [task_name] })

/-! ## Dispatch (`TaskManager.exec`)

The observable behaviour of `exec` is captured by an `ExecResult`: the
sequence of logging events emitted, the list of task-callable invocations
performed, and whether `exec` returned (and with what) or terminated the
process via `sys.exit`.  Each `LogEvent` constructor corresponds to one
logging call in the source:
  * `info msg`       — `self.info(msg)` (used for the splash banner),
  * `errorMsg msg`   — `self.error(msg)` (rendered as `ERROR: {msg}`),
  * `usage name`     — `self.log(f"Usage: {name} [task]\n")`,
  * `tasksHeader`    — `self.log("Available tasks:\n")`,
  * `taskLine n d`   — `self.log(f" {n:<22} {d}")` per registered task,
  * `blank`          — `self.log("")` / `self.log()`,
  * `taskHelp name`  — `task.parser.print_help()`,
  * `usageErr msg`   — `argparse`'s `ArgumentParser.error(msg)` output
                       (usage plus message, written to stderr). -/

inductive LogEvent where
  | info (msg : String)
  | errorMsg (msg : String)
  | usage (progName : String)
  | tasksHeader
  | taskLine (name doc : String)
  | blank
  | taskHelp (taskName : String)
  | usageErr (msg : String)
  deriving DecidableEq, Repr

inductive Outcome where
  | returned (inv : Option Invocation)
  | exited (code : Nat)
  deriving DecidableEq, Repr

structure ExecResult where
  log : List LogEvent
  calls : List Invocation
  outcome : Outcome
  deriving DecidableEq, Repr

/-- Python truthiness of the optional `splash` string: `None` and `""` are
falsy (`doot.py` line 454: `if splash:`). -/
def splashTruthy : Option String → Bool
  | none => false
  | some s => !s.isEmpty

/-- `TaskManager.print_help` (`doot.py` lines 447-466) as the sequence of
logging events it emits. -/
def printHelpEvents (st : TaskManager) (nm : String) (splash : Option String)
    (show_usage : Bool) : List LogEvent :=
  (if splashTruthy splash then [LogEvent.info (splash.getD ""), LogEvent.blank] else []) ++
  (if show_usage then [LogEvent.usage nm] else []) ++
  [LogEvent.tasksHeader] ++
  st.tasks.map (fun p => LogEvent.taskLine p.1 p.2.short_doc) ++
  [LogEvent.blank]

/-- Parsing the argument vector after the sub-command token against a
task's parser, as `self.parser.parse_known_args(args)` does once the
sub-parsers action has consumed `args[0]` and dispatched the remainder to
the task's sub-parser. -/
def parseKnownArgsTask (t : Task) (rest : List String) :
    Except String (PyNamespace × List String) :=
  parseLoop rest.length t.parserArgs rest (initNs t.parserArgs)

/-- `TaskManager.exec` (`doot.py` lines 487-530).  `args` is the effective
argument vector (the source substitutes `sys.argv[1:]` when the caller
passes nothing or an empty list); `nm` and `splash` are the resolved
display name and banner string.  Branches, in source order:
  * empty vector or first token `-h`/`help`: either the named task's
    parser help (`help <task>` with a registered task) or the full help
    listing; `exec` returns `None`, it does not exit;
  * unknown first token: `self.error(f"Invalid command: {args[0]}\n")`,
    then `print_help(name=name, splash=None, show_usage=False)`, then
    `sys.exit(1)`;
  * known task: `parse_known_args` when `allow_extra`, else `parse_args`
    (which errors out with an `unrecognized arguments` usage message and
    `sys.exit(2)` when anything is left over; a missing `store` value
    likewise exits with status 2 inside `argparse`); finally
    `task(opt, extra)` is invoked and its value returned.  The
    `if not opt.func` guard of the source never fires (the sub-parser
    always sets a truthy `func` default) and is not modelled. -/
def TaskManager.exec (st : TaskManager) (args : List String) (nm : String)
    (splash : String) : ExecResult :=
  match args with
  | [] =>
    { log := printHelpEvents st nm (some splash) true, calls := [],
      outcome := .returned none }
  | a :: rest =>
    if a = "-h" ∨ a = "help" then
      match rest with
      | b :: _ =>
        match assocGet st.tasks b with
        | some t =>
          { log := [LogEvent.taskHelp t.name], calls := [], outcome := .returned none }
        | none =>
          { log := printHelpEvents st nm (some splash) true, calls := [],
            outcome := .returned none }
      | [] =>
        { log := printHelpEvents st nm (some splash) true, calls := [],
          outcome := .returned none }
    else
      match assocGet st.tasks a with
      | none =>
        { log := LogEvent.errorMsg s!"Invalid command: {a}\n" ::
            printHelpEvents st nm none false,
          calls := [], outcome := .exited 1 }
      | some t =>
        if t.allow_extra then
          match parseKnownArgsTask t rest with
          | .error m => { log := [LogEvent.usageErr m], calls := [], outcome := .exited 2 }
          | .ok (ns, ex) =>
            let inv := t.call ns (some ex)
            { log := [], calls := [inv], outcome := .returned (some inv) }
        else
          match parseKnownArgsTask t rest with
          | .error m => { log := [LogEvent.usageErr m], calls := [], outcome := .exited 2 }
          | .ok (ns, ex) =>
            if ex = [] then
              let inv := t.call ns (some [])
              { log := [], calls := [inv], outcome := .returned (some inv) }
            else
              { log := [LogEvent.usageErr
                  ("unrecognized arguments: " ++ String.intercalate " " ex)],
                calls := [], outcome := .exited 2 }

/-! ## The shell runner (`TaskManager.run`) and `shlex.split(..., posix=False)`

`shlex.split(s, posix=False)` (with `whitespace_split=True` and comments
disabled, which is what `shlex.split` configures) scans characters with
three states: between tokens, inside a word, inside a quoted section.  In
non-POSIX mode a quote character opens a quoted section only at the start
of a token, the quote characters are kept in the token, the quoted section
ends at the matching quote (which also ends the token), and escape
characters are inert.  An unterminated quote raises
`ValueError("No closing quotation")`. -/

def dq : Char := '"'

/-- The single-quote character. -/
def sq : Char := Char.ofNat 39

def isShWhitespace (c : Char) : Bool :=
  c = ' ' ∨ c = '\t' ∨ c = '\r' ∨ c = '\n'

def isShQuote (c : Char) : Bool :=
  c = dq ∨ c = sq

inductive ShState where
  | ws
  | word
  | quoted (q : Char)
  deriving DecidableEq, Repr

def shlexRun : List Char → List Char → ShState → Except String (List String)
  | [], _, .quoted _ => .error "No closing quotation"
  | [], tok, _ => .ok (if tok = [] then [] else [String.mk tok])
  | c :: cs, tok, .ws =>
    if isShWhitespace c then shlexRun cs tok .ws
    else if isShQuote c then shlexRun cs [c] (.quoted c)
    else shlexRun cs [c] .word
  | c :: cs, tok, .word =>
    if isShWhitespace c then
      match shlexRun cs [] .ws with
      | .ok ts => .ok (String.mk tok :: ts)
      | .error e => .error e
    else shlexRun cs (tok ++ [c]) .word
  | c :: cs, tok, .quoted q =>
    if c = q then
      match shlexRun cs [] .ws with
      | .ok ts => .ok (String.mk (tok ++ [c]) :: ts)
      | .error e => .error e
    else shlexRun cs (tok ++ [c]) (.quoted q)

def shlexSplitNonPosix (s : String) : Except String (List String) :=
  shlexRun s.data [] .ws

/-- A `str | List[str]` union argument. -/
inductive StrOrList where
  | str (s : String)
  | list (l : List String)
  deriving DecidableEq, Repr

/-- The result of `TaskManager.run`: the token list handed to
`subprocess.call`, the token list echoed to the logging sink when `echo`
is true (the textual ` -> {subprocess.list2cmdline(...)}` formatting is
not modelled, only which tokens are echoed), and the child's exit status
as returned by `subprocess.call`. -/
structure RunResult where
  executed : List String
  echoed : Option (List String)
  code : Int
  deriving DecidableEq, Repr

/-- `TaskManager.run` (`doot.py` lines 425-445).  `callM` models
`subprocess.call`: the child process's exit status as a function of the
token list.  A string command (and a string extra) is tokenized with
`shlex.split(..., posix=False)`; a `ValueError` from `shlex` propagates to
the caller (the `.error` branch).  Extra tokens are appended after the
primary tokens; `None` extra appends nothing. -/
def TaskManager.run (callM : List String → Int) (args : StrOrList)
    (extra : Option StrOrList) (echo : Bool) : Except String RunResult := do
  let args_list ← match args with
    | .str s => shlexSplitNonPosix s
    | .list l => pure l
  let extra_list : Option (List String) ← match extra with
    | none => pure none
    | some (.str s) => (shlexSplitNonPosix s).map some
    | some (.list l) => pure (some l)
  let args_list := match extra_list with
    | none => args_list
    | some e => args_list ++ e
  pure { executed := args_list,
         echoed := if echo then some args_list else none,
         code := callM args_list }

/-! ## The `Argument` value object -/

/-- An opaque Python object as stored in an `Argument` field: the
constructor stores whatever it is given without inspecting it, so the
verification only needs a carrier with decidable equality. -/
inductive PyObj where
  | pynone
  | str (s : String)
  | int (n : Int)
  | bool (b : Bool)
  deriving DecidableEq, Repr

/-- `Argument` (`doot.py` lines 533-647): the fields assigned by
`Argument.__init__`. -/
structure Argument where
  args : List String
  action : PyObj
  nargs : PyObj
  const : PyObj
  default : PyObj
  type : PyObj
  choices : PyObj
  required : Bool
  help : PyObj
  metavar : PyObj
  dest : PyObj
  extra_kwargs : List (String × PyObj)
  deriving DecidableEq, Repr

/-- `Argument.__init__` (`doot.py` lines 609-647): the body is eleven
plain attribute assignments; it performs no validation and cannot raise,
for any flag sequence (including the empty one). -/
def Argument.init (name_or_flags : List String)
    (action nargs const default type choices : PyObj) (required : Bool)
    (help metavar dest : PyObj) (extra_kwargs : List (String × PyObj)) : Argument :=
  { args := name_or_flags, action := action, nargs := nargs, const := const,
    default := default, type := type, choices := choices, required := required,
    help := help, metavar := metavar, dest := dest, extra_kwargs := extra_kwargs }

/-- `TaskManager.arg` (`doot.py` lines 314-423): forwards everything to
the `Argument` constructor. -/
def TaskManager.arg (_st : TaskManager) (name_or_flags : List String)
    (action nargs const default type choices : PyObj) (required : Bool)
    (help metavar dest : PyObj) (extra_kwargs : List (String × PyObj)) : Argument :=
  Argument.init name_or_flags action nargs const default type choices required
    help metavar dest extra_kwargs

/-! ## Concrete fixtures used by witness theorems -/

def emptyManager : TaskManager := ⟨[], [], 0⟩

def helloExtraFunc : PyFunc := ⟨"hello", none, 2⟩

/-- The manager obtained by registering a two-parameter callable named
`hello` with `allow_extra=True` and no declared arguments. -/
def managerExtra : TaskManager :=
  match TaskManager.task emptyManager [] none true helloExtraFunc with
  | .ok (_, st) => st
  | .error _ => emptyManager

def helloStrictFunc : PyFunc := ⟨"hello", none, 0⟩

/-- The manager obtained by registering a zero-parameter callable named
`hello` without `allow_extra` and with no declared arguments. -/
def managerStrict : TaskManager :=
  match TaskManager.task emptyManager [] none false helloStrictFunc with
  | .ok (_, st) => st
  | .error _ => emptyManager

/-! ## Helper lemmas -/

theorem assocGet_assocSet_self {α : Type} (d : List (String × α)) (k : String) (v : α) :
    assocGet (assocSet d k v) k = some v := by
  induction d with
  | nil => simp [assocSet, assocGet]
  | cons p rest ih =>
    obtain ⟨k', v'⟩ := p
    by_cases h : k' = k
    · simp [assocSet, assocGet, h]
    · simp [assocSet, assocGet, h, ih]

theorem assocGet_assocSet_ne {α : Type} (d : List (String × α)) (k m : String) (v : α)
    (h : m ≠ k) : assocGet (assocSet d k v) m = assocGet d m := by
  induction d with
  | nil => simp [assocSet, assocGet, Ne.symm h]
  | cons p rest ih =>
    obtain ⟨k', v'⟩ := p
    by_cases hk : k' = k
    · subst hk
      simp [assocSet, assocGet, Ne.symm h]
    · simp [assocSet, assocGet, hk, ih]

/-- Whatever `parseLoop` reports as unrecognized is a verbatim,
order-preserving selection of the input tokens, and each such token
matches none of the declared flags. -/
theorem parseLoop_extras :
    ∀ (fuel : Nat) (decls : List ArgSpec) (toks : List String) (ns ns' : PyNamespace)
      (ex : List String),
      parseLoop fuel decls toks ns = .ok (ns', ex) →
      ex.Sublist toks ∧ ∀ tok ∈ ex, findSpec decls tok = none := by
  intro fuel
  induction fuel with
  | zero =>
    intro decls toks ns ns' ex h
    cases toks with
    | nil =>
      simp [parseLoop] at h
      obtain ⟨-, rfl⟩ := h
      exact ⟨List.nil_sublist _, by simp⟩
    | cons tok rest => simp [parseLoop] at h
  | succ fuel ih =>
    intro decls toks ns ns' ex h
    cases toks with
    | nil =>
      simp [parseLoop] at h
      obtain ⟨-, rfl⟩ := h
      exact ⟨List.nil_sublist _, by simp⟩
    | cons tok rest =>
      rw [parseLoop] at h
      split at h
      · -- findSpec decls tok = some spec
        split at h
        · -- store_true
          obtain ⟨h1, h2⟩ := ih decls rest _ ns' ex h
          exact ⟨h1.cons tok, h2⟩
        · -- store
          cases rest with
          | nil => simp at h
          | cons v rest2 =>
            dsimp only at h
            obtain ⟨h1, h2⟩ := ih decls rest2 _ ns' ex h
            exact ⟨(h1.cons v).cons tok, h2⟩
      · -- findSpec decls tok = none
        rename_i hf
        cases hp : parseLoop fuel decls rest ns with
        | error e =>
          rw [hp] at h
          simp at h
        | ok p =>
          obtain ⟨ns2, ex0⟩ := p
          rw [hp] at h
          simp only [Except.ok.injEq, Prod.mk.injEq] at h
          obtain ⟨-, hex⟩ := h
          subst hex
          obtain ⟨h1, h2⟩ := ih decls rest ns ns2 ex0 hp
          refine ⟨h1.cons₂ tok, ?_⟩
          intro tok' htok'
          rcases List.mem_cons.mp htok' with rfl | hmem
          · exact hf
          · exact h2 tok' hmem

/-- Inside a non-POSIX quoted section, every character up to the matching
quote is accumulated into the current token, and the closing quote is kept
and ends the token. -/
theorem shlexRun_quoted (q : Char) (cs : List Char) (hq : q ∉ cs) :
    ∀ tok, shlexRun (cs ++ [q]) tok (.quoted q) = .ok [String.mk (tok ++ cs ++ [q])] := by
  induction cs with
  | nil => intro tok; simp [shlexRun]
  | cons c cs' ih =>
    intro tok
    have hcq : c ≠ q := by rintro rfl; exact hq (List.mem_cons_self _ _)
    have hq' : q ∉ cs' := fun hm => hq (List.mem_cons_of_mem c hm)
    have hstep : (c :: cs') ++ [q] = c :: (cs' ++ [q]) := rfl
    rw [hstep, shlexRun, if_neg hcq, ih hq' (tok ++ [c])]
    simp

/-! ## Claim theorems -/

/-- Claim C1: a task registered without an explicit name is stored under
the name derived from the function identifier by first replacing every
`__` with `:` and then replacing every remaining `_` with `-`, in that
order; in particular `super__hello_world` registers as
`super:hello-world`. -/
theorem task_name_derivation :
    (∀ s : String, deriveTaskName s = pyReplace (pyReplace s "__" ":") "_" "-") ∧
    (∀ (st : TaskManager) (ad : List ArgSpec) (ae : Bool) (f : PyFunc),
      f.numParams ≤ 2 →
      ∃ st' t, TaskManager.task st ad none ae f = .ok (f, st') ∧
        assocGet st'.tasks (deriveTaskName f.name) = some t ∧
        t.func = f ∧ t.name = deriveTaskName f.name) ∧
    deriveTaskName "super__hello_world" = "super:hello-world" := by
  refine ⟨fun s => rfl, ?_, by decide⟩
  intro st ad ae f h
  have h3 : ¬(f.numParams > 2) := by omega
  have hv : validate_and_get_num_args (deriveTaskName f.name) f.numParams =
      .ok f.numParams := by
    simp [validate_and_get_num_args, h3]
  refine ⟨{ st with
      tasks := assocSet st.tasks (deriveTaskName f.name)
        ⟨ae, deriveTaskName f.name, f, f.numParams, f.doc.getD "", ad⟩,
      parserNames := st.parserNames ++ [deriveTaskName f.name] },
    ⟨ae, deriveTaskName f.name, f, f.numParams, f.doc.getD "", ad⟩, ?_, ?_, rfl, rfl⟩
  · simp [TaskManager.task, hv]
  · exact assocGet_assocSet_self ..

/-- Witness for C1: registering a zero-parameter callable named
`super__hello_world` on an empty manager stores it under
`super:hello-world`. -/
theorem task_name_derivation_witness :
    ∃ st' t, TaskManager.task emptyManager [] none true ⟨"super__hello_world", none, 0⟩ =
        .ok (⟨"super__hello_world", none, 0⟩, st') ∧
      assocGet st'.tasks (deriveTaskName "super__hello_world") = some t ∧
      t.func = ⟨"super__hello_world", none, 0⟩ ∧
      t.name = deriveTaskName "super__hello_world" :=
  task_name_derivation.2.1 emptyManager [] true ⟨"super__hello_world", none, 0⟩ (by decide)

/-- Claim C2: registering a callable whose declared parameter count is
outside `{0, 1, 2}` raises `InvalidArgumentCountException` carrying the
task name and the parameter count, at decoration time (the registration
model never invokes the callable); a count of 0, 1 or 2 registers without
error. -/
theorem task_arity_validation :
    ∀ (st : TaskManager) (ad : List ArgSpec) (nm : Option String) (ae : Bool) (f : PyFunc),
      (¬(f.numParams = 0 ∨ f.numParams = 1 ∨ f.numParams = 2) →
        TaskManager.task st ad nm ae f =
          .error ⟨nm.getD (deriveTaskName f.name), f.numParams⟩) ∧
      ((f.numParams = 0 ∨ f.numParams = 1 ∨ f.numParams = 2) →
        ∃ st', TaskManager.task st ad nm ae f = .ok (f, st')) := by
  intro st ad nm ae f
  constructor
  · intro h
    have h3 : f.numParams > 2 := by omega
    simp [TaskManager.task, validate_and_get_num_args, h3]
  · intro h
    have h3 : ¬(f.numParams > 2) := by omega
    have hv : validate_and_get_num_args (nm.getD (deriveTaskName f.name)) f.numParams =
        .ok f.numParams := by
      simp [validate_and_get_num_args, h3]
    exact ⟨{ st with
        tasks := assocSet st.tasks (nm.getD (deriveTaskName f.name))
          ⟨ae, nm.getD (deriveTaskName f.name), f, f.numParams, f.doc.getD "", ad⟩,
        parserNames := st.parserNames ++ [nm.getD (deriveTaskName f.name)] },
      by simp [TaskManager.task, hv]⟩

/-- Witness for C2: a three-parameter callable is rejected with the
exception carrying its derived name and count 3, and a one-parameter
callable is accepted. -/
theorem task_arity_validation_witness :
    TaskManager.task emptyManager [] none false ⟨"hello_world_one", none, 3⟩ =
      .error ⟨"hello-world-one", 3⟩ ∧
    ∃ st', TaskManager.task emptyManager [] none false ⟨"hello", none, 1⟩ =
      .ok (⟨"hello", none, 1⟩, st') :=
  ⟨(task_arity_validation emptyManager [] none false ⟨"hello_world_one", none, 3⟩).1
      (by decide),
   (task_arity_validation emptyManager [] none false ⟨"hello", none, 1⟩).2
      (by decide)⟩

/-- Claim C3: a task callable is invoked according to its declared arity —
zero parameters: no arguments; one parameter: exactly the parsed options;
two parameters: the parsed options and the extra list, which is `[]` (not
absent) when nothing was collected — and on the strict dispatch path
`exec` passes exactly the empty extra list to the task. -/
theorem dispatch_invokes_by_arity :
    (∀ (t : Task) (opt : PyNamespace) (extra : Option (List String)),
      (t.num_args = 0 → t.call opt extra = .zero) ∧
      (t.num_args = 1 → t.call opt extra = .one opt) ∧
      (t.num_args = 2 → t.call opt extra = .two opt (extra.getD [])) ∧
      (t.num_args = 2 → t.call opt none = .two opt [])) ∧
    (∀ (st : TaskManager) (a : String) (rest : List String) (nm sp : String)
        (t : Task) (ns : PyNamespace),
      a ≠ "-h" → a ≠ "help" → assocGet st.tasks a = some t → t.allow_extra = false →
      parseKnownArgsTask t rest = .ok (ns, []) →
      TaskManager.exec st (a :: rest) nm sp =
        { log := [], calls := [t.call ns (some [])],
          outcome := .returned (some (t.call ns (some []))) }) := by
  constructor
  · intro t opt extra
    refine ⟨fun h => ?_, fun h => ?_, fun h => ?_, fun h => ?_⟩ <;> simp [Task.call, h]
  · intro st a rest nm sp t ns h1 h2 hget hae hp
    have hor : ¬(a = "-h" ∨ a = "help") := by simp [h1, h2]
    simp only [TaskManager.exec, if_neg hor, hget, hae, hp]
    rfl

/-- Witness for C3: a strictly-registered zero-parameter task `hello` is
invoked with no arguments when dispatched on `["hello"]`, and a task of
arity 2 called with an absent extra list receives `[]`. -/
theorem dispatch_invokes_by_arity_witness :
    TaskManager.exec managerStrict ["hello"] "prog" "" =
      { log := [], calls := [Invocation.zero],
        outcome := .returned (some Invocation.zero) } ∧
    Task.call ⟨true, "hello", helloExtraFunc, 2, "", []⟩ [] none = .two [] [] := by
  constructor
  · have h := dispatch_invokes_by_arity.2 managerStrict "hello" [] "prog" ""
      ⟨false, "hello", helloStrictFunc, 0, "", []⟩ []
      (by decide) (by decide) (by rfl) rfl (by rfl)
    simpa using h
  · exact (dispatch_invokes_by_arity.1 ⟨true, "hello", helloExtraFunc, 2, "", []⟩ [] none).2.2.2
      rfl

/-- Claim C9 counterexample: `Argument.__init__` (and thus
`TaskManager.arg`) performs no validation at all — called with an empty
flag sequence it succeeds and returns a fully-formed `Argument` whose
`args` field is empty, instead of failing with a construction error. -/
theorem arg_empty_flags_cex :
    TaskManager.arg emptyManager [] .pynone .pynone .pynone .pynone .pynone .pynone
        false .pynone .pynone .pynone [] =
      { args := [], action := .pynone, nargs := .pynone, const := .pynone,
        default := .pynone, type := .pynone, choices := .pynone, required := false,
        help := .pynone, metavar := .pynone, dest := .pynone, extra_kwargs := [] } := rfl

/-- Claim C9 (amended): constructing an Argument Descriptor never fails —
for every flag sequence (empty or not) the constructor succeeds and stores
all of its parameters verbatim. -/
theorem arg_constructor_stores_fields :
    ∀ (st : TaskManager) (flags : List String)
      (action nargs const default type choices : PyObj) (required : Bool)
      (help metavar dest : PyObj) (kw : List (String × PyObj)),
      TaskManager.arg st flags action nargs const default type choices required
          help metavar dest kw =
        { args := flags, action := action, nargs := nargs, const := const,
          default := default, type := type, choices := choices, required := required,
          help := help, metavar := metavar, dest := dest, extra_kwargs := kw } := by
  intro st flags action nargs const default type choices required help metavar dest kw
  rfl

/-- Claim C10: the `task` decorator hands back the decorated callable
itself (not a wrapper), the registered `Task.func` is that same callable,
and registration touches only the `tasks` map and the parser tree — the
logging sink is untouched. -/
theorem task_decorator_identity_frame :
    ∀ (st : TaskManager) (ad : List ArgSpec) (nm : Option String) (ae : Bool)
      (f g : PyFunc) (st' : TaskManager),
      TaskManager.task st ad nm ae f = .ok (g, st') →
      g = f ∧
      (∃ t, assocGet st'.tasks (nm.getD (deriveTaskName f.name)) = some t ∧ t.func = f) ∧
      st'.logfuncId = st.logfuncId ∧
      st'.tasks = assocSet st.tasks (nm.getD (deriveTaskName f.name))
        ⟨ae, nm.getD (deriveTaskName f.name), f, f.numParams, f.doc.getD "", ad⟩ ∧
      st'.parserNames = st.parserNames ++ [nm.getD (deriveTaskName f.name)] := by
  intro st ad nm ae f g st' h
  by_cases h3 : f.numParams > 2
  · simp [TaskManager.task, validate_and_get_num_args, h3] at h
  · have hv : validate_and_get_num_args (nm.getD (deriveTaskName f.name)) f.numParams =
        .ok f.numParams := by
      simp [validate_and_get_num_args, h3]
    simp only [TaskManager.task, hv, Except.ok.injEq, Prod.mk.injEq] at h
    obtain ⟨hg, hst⟩ := h
    subst hg
    subst hst
    refine ⟨rfl, ⟨_, assocGet_assocSet_self .., rfl⟩, rfl, rfl, rfl⟩

/-- Witness for C10: registering `hello` on the empty manager returns the
callable unchanged, maps `hello` to a task whose `func` is that callable,
and leaves the logging sink identifier untouched. -/
theorem task_decorator_identity_frame_witness :
    helloStrictFunc = helloStrictFunc ∧
    (∃ t, assocGet managerStrict.tasks "hello" = some t ∧ t.func = helloStrictFunc) ∧
    managerStrict.logfuncId = emptyManager.logfuncId ∧
    managerStrict.tasks = assocSet emptyManager.tasks "hello"
      ⟨false, "hello", helloStrictFunc, 0, "", []⟩ ∧
    managerStrict.parserNames = emptyManager.parserNames ++ ["hello"] := by
  have h := task_decorator_identity_frame emptyManager [] none false
    helloStrictFunc helloStrictFunc managerStrict (by rfl)
  simpa using h

/-- Claim C4: dispatching to a task registered with `allow_extra=True`
parses the declared arguments and routes every token the task's schema
does not recognize, verbatim and in original order, into the extra list
handed to the task. -/
theorem allow_extra_collects_unmatched :
    ∀ (st : TaskManager) (a : String) (rest : List String) (t : Task) (nm sp : String)
      (ns : PyNamespace) (ex : List String),
      a ≠ "-h" → a ≠ "help" → assocGet st.tasks a = some t → t.allow_extra = true →
      parseKnownArgsTask t rest = .ok (ns, ex) →
      TaskManager.exec st (a :: rest) nm sp =
        { log := [], calls := [t.call ns (some ex)],
          outcome := .returned (some (t.call ns (some ex))) } ∧
      ex.Sublist rest ∧
      (∀ tok ∈ ex, findSpec t.parserArgs tok = none) := by
  intro st a rest t nm sp ns ex h1 h2 hget hae hp
  have hor : ¬(a = "-h" ∨ a = "help") := by simp [h1, h2]
  obtain ⟨hs, hall⟩ := parseLoop_extras rest.length t.parserArgs rest
    (initNs t.parserArgs) ns ex hp
  refine ⟨?_, hs, hall⟩
  simp only [TaskManager.exec, if_neg hor, hget, hae, hp]
  simp

/-- Witness for C4, the example of the claim: on a manager holding the
two-parameter task `hello` registered with `allow_extra=True` and no
declared flags, `exec ["hello", "-n", "world"]` hands the task the extras
`["-n", "world"]`. -/
theorem allow_extra_collects_unmatched_witness :
    TaskManager.exec managerExtra ["hello", "-n", "world"] "prog" "" =
      { log := [],
        calls := [Invocation.two [] ["-n", "world"]],
        outcome := .returned (some (Invocation.two [] ["-n", "world"])) } ∧
    List.Sublist ["-n", "world"] ["-n", "world"] ∧
    (∀ tok ∈ (["-n", "world"] : List String), findSpec [] tok = none) := by
  have h := allow_extra_collects_unmatched managerExtra "hello" ["-n", "world"]
    ⟨true, "hello", helloExtraFunc, 2, "", []⟩ "prog" "" [] ["-n", "world"]
    (by decide) (by decide) (by rfl) rfl (by rfl)
  simpa using h

/-- Claim C5: a non-empty argument vector whose first element is neither
`-h` nor `help` and names no registered task makes `exec` emit the error
line `Invalid command: <name>` followed by the task listing with no banner
and no usage line, exit with status 1, and invoke no task callable. -/
theorem unknown_command_diagnostics :
    ∀ (st : TaskManager) (a : String) (rest : List String) (nm sp : String),
      a ≠ "-h" → a ≠ "help" → assocGet st.tasks a = none →
      TaskManager.exec st (a :: rest) nm sp =
        { log := LogEvent.errorMsg s!"Invalid command: {a}\n" ::
            printHelpEvents st nm none false,
          calls := [], outcome := .exited 1 } ∧
      (∀ m, LogEvent.info m ∉ (TaskManager.exec st (a :: rest) nm sp).log) ∧
      (∀ m, LogEvent.usage m ∉ (TaskManager.exec st (a :: rest) nm sp).log) := by
  intro st a rest nm sp h1 h2 hget
  have hor : ¬(a = "-h" ∨ a = "help") := by simp [h1, h2]
  have hE : TaskManager.exec st (a :: rest) nm sp =
      { log := LogEvent.errorMsg s!"Invalid command: {a}\n" ::
          printHelpEvents st nm none false,
        calls := [], outcome := .exited 1 } := by
    simp only [TaskManager.exec, if_neg hor, hget]
  refine ⟨hE, ?_, ?_⟩ <;>
    · intro m
      rw [hE]
      simp [printHelpEvents, splashTruthy]

/-- Witness for C5: `exec ["nonexistent"]` on the strict fixture manager
emits `Invalid command: nonexistent` plus the bare listing, exits 1, and
calls nothing. -/
theorem unknown_command_diagnostics_witness :
    TaskManager.exec managerStrict ["nonexistent"] "prog" "" =
      { log := LogEvent.errorMsg "Invalid command: nonexistent\n" ::
          printHelpEvents managerStrict "prog" none false,
        calls := [], outcome := .exited 1 } ∧
    (∀ m, LogEvent.info m ∉
      (TaskManager.exec managerStrict ["nonexistent"] "prog" "").log) ∧
    (∀ m, LogEvent.usage m ∉
      (TaskManager.exec managerStrict ["nonexistent"] "prog" "").log) := by
  have h := unknown_command_diagnostics managerStrict "nonexistent" [] "prog" ""
    (by decide) (by decide) (by rfl)
  simpa using h

/-- Claim C6 counterexample: on a strict task (`hello`, zero parameters,
no declared flags) invoked as `["hello", "-n", "world"]`, dispatch does
NOT print that task's help and does NOT exit with status 1: `argparse`'s
`parse_args` rejects the unrecognized arguments with a usage/error
message on stderr and `sys.exit(2)`. -/
theorem strict_unrecognized_cex :
    TaskManager.exec managerStrict ["hello", "-n", "world"] "prog" "" =
      { log := [LogEvent.usageErr "unrecognized arguments: -n world"],
        calls := [], outcome := .exited 2 } ∧
    (TaskManager.exec managerStrict ["hello", "-n", "world"] "prog" "").outcome ≠
      .exited 1 ∧
    (∀ tn, LogEvent.taskHelp tn ∉
      (TaskManager.exec managerStrict ["hello", "-n", "world"] "prog" "").log) := by
  have hE : TaskManager.exec managerStrict ["hello", "-n", "world"] "prog" "" =
      { log := [LogEvent.usageErr "unrecognized arguments: -n world"],
        calls := [], outcome := .exited 2 } := by rfl
  refine ⟨hE, by rw [hE]; decide, ?_⟩
  intro tn
  rw [hE]
  simp

/-- Claim C6 (amended): dispatching a task registered without
`allow_extra` on an argument vector containing tokens its schema does not
recognize prints an `unrecognized arguments` usage error (via `argparse`)
and terminates the process with exit status 2 — not the task's help and
not status 1 — and the task callable is not invoked. -/
theorem strict_unrecognized_exits_two :
    ∀ (st : TaskManager) (a : String) (rest : List String) (t : Task) (nm sp : String)
      (ns : PyNamespace) (ex : List String),
      a ≠ "-h" → a ≠ "help" → assocGet st.tasks a = some t → t.allow_extra = false →
      parseKnownArgsTask t rest = .ok (ns, ex) → ex ≠ [] →
      TaskManager.exec st (a :: rest) nm sp =
        { log := [LogEvent.usageErr
            ("unrecognized arguments: " ++ String.intercalate " " ex)],
          calls := [], outcome := .exited 2 } := by
  intro st a rest t nm sp ns ex h1 h2 hget hae hp hex
  have hor : ¬(a = "-h" ∨ a = "help") := by simp [h1, h2]
  simp only [TaskManager.exec, if_neg hor, hget, hae, hp, if_neg hex]
  simp

/-- Witness for the amended C6: the concrete failing input of the
counterexample, through the general theorem. -/
theorem strict_unrecognized_exits_two_witness :
    TaskManager.exec managerStrict ["hello", "-n", "world"] "prog2" "" =
      { log := [LogEvent.usageErr "unrecognized arguments: -n world"],
        calls := [], outcome := .exited 2 } := by
  have h := strict_unrecognized_exits_two managerStrict "hello" ["-n", "world"]
    ⟨false, "hello", helloStrictFunc, 0, "", []⟩ "prog2" "" [] ["-n", "world"]
    (by decide) (by decide) (by rfl) rfl (by rfl) (by decide)
  simpa using h

/-- Claim C7: a string-form command handed to `run` is tokenized by
non-POSIX shell word splitting, which keeps a quoted substring as one
token with its quote characters preserved; a string-form extra is
tokenized the same way and appended after the primary tokens; `run`
returns the child process's exit status. -/
theorem run_string_tokenization :
    (∀ (callM : List String → Int) (s e : String) (toks1 toks2 : List String)
        (echo : Bool),
      shlexSplitNonPosix s = .ok toks1 → shlexSplitNonPosix e = .ok toks2 →
      TaskManager.run callM (.str s) (some (.str e)) echo =
        .ok { executed := toks1 ++ toks2,
              echoed := if echo then some (toks1 ++ toks2) else none,
              code := callM (toks1 ++ toks2) }) ∧
    shlexSplitNonPosix "ls \"-lh foo\"" = .ok ["ls", "\"-lh foo\""] ∧
    (∀ cs : List Char, dq ∉ cs →
      shlexSplitNonPosix (String.mk (dq :: cs ++ [dq])) =
        .ok [String.mk (dq :: cs ++ [dq])]) ∧
    (∀ callM : List String → Int,
      TaskManager.run callM (.str "ls \"-lh foo\"") none false =
        .ok { executed := ["ls", "\"-lh foo\""], echoed := none,
              code := callM ["ls", "\"-lh foo\""] }) := by
  refine ⟨?_, by rfl, ?_, ?_⟩
  · intro callM s e toks1 toks2 echo h1 h2
    simp only [TaskManager.run, h1, h2]
    rfl
  · intro cs hdq
    have h := shlexRun_quoted dq cs hdq [dq]
    unfold shlexSplitNonPosix
    have hdata : (String.mk (dq :: cs ++ [dq])).data = dq :: (cs ++ [dq]) := rfl
    rw [hdata, shlexRun]
    have hws : isShWhitespace dq = false := by decide
    have hqt : isShQuote dq = true := by decide
    rw [hws, hqt]
    simpa using h
  · intro callM
    have hs : shlexSplitNonPosix "ls \"-lh foo\"" = .ok ["ls", "\"-lh foo\""] := by rfl
    simp only [TaskManager.run, hs]
    rfl

/-- Witness for C7: `run("ls -lh", "-a -w")` executes the token list
`["ls", "-lh", "-a", "-w"]` and returns the child's status, here modelled
as the token count 4. -/
theorem run_string_tokenization_witness :
    TaskManager.run (fun l => (l.length : Int)) (.str "ls -lh") (some (.str "-a -w"))
        false =
      .ok { executed := ["ls", "-lh", "-a", "-w"], echoed := none, code := 4 } ∧
    shlexSplitNonPosix (String.mk (dq :: "-lh foo".data ++ [dq])) =
      .ok [String.mk (dq :: "-lh foo".data ++ [dq])] := by
  constructor
  · have h := run_string_tokenization.1 (fun l => (l.length : Int)) "ls -lh" "-a -w"
      ["ls", "-lh"] ["-a", "-w"] false (by rfl) (by rfl)
    simpa using h
  · exact run_string_tokenization.2.2.1 "-lh foo".data (by decide)

/-- Claim C8: two registrations under the same derived name on the same
manager both succeed, the second silently overwrites the first (the
registry afterwards maps the name to the later task), and lookups of
every other name are unaffected. -/
theorem duplicate_registration_last_wins :
    ∀ (st : TaskManager) (f1 f2 : PyFunc) (ad1 ad2 : List ArgSpec) (ae1 ae2 : Bool),
      f1.numParams ≤ 2 → f2.numParams ≤ 2 →
      deriveTaskName f1.name = deriveTaskName f2.name →
      ∃ st1 st2 t2,
        TaskManager.task st ad1 none ae1 f1 = .ok (f1, st1) ∧
        TaskManager.task st1 ad2 none ae2 f2 = .ok (f2, st2) ∧
        assocGet st2.tasks (deriveTaskName f2.name) = some t2 ∧
        t2.func = f2 ∧ t2.allow_extra = ae2 ∧ t2.parserArgs = ad2 ∧
        (∀ m, m ≠ deriveTaskName f2.name →
          assocGet st2.tasks m = assocGet st.tasks m) := by
  intro st f1 f2 ad1 ad2 ae1 ae2 h1 h2 hname
  have h31 : ¬(f1.numParams > 2) := by omega
  have h32 : ¬(f2.numParams > 2) := by omega
  have hv1 : validate_and_get_num_args (deriveTaskName f1.name) f1.numParams =
      .ok f1.numParams := by simp [validate_and_get_num_args, h31]
  have hv2 : validate_and_get_num_args (deriveTaskName f2.name) f2.numParams =
      .ok f2.numParams := by simp [validate_and_get_num_args, h32]
  refine ⟨{ st with
      tasks := assocSet st.tasks (deriveTaskName f1.name)
        ⟨ae1, deriveTaskName f1.name, f1, f1.numParams, f1.doc.getD "", ad1⟩,
      parserNames := st.parserNames ++ [deriveTaskName f1.name] },
    { tasks := assocSet (assocSet st.tasks (deriveTaskName f1.name)
          ⟨ae1, deriveTaskName f1.name, f1, f1.numParams, f1.doc.getD "", ad1⟩)
        (deriveTaskName f2.name)
        ⟨ae2, deriveTaskName f2.name, f2, f2.numParams, f2.doc.getD "", ad2⟩,
      parserNames := st.parserNames ++ [deriveTaskName f1.name] ++ [deriveTaskName f2.name],
      logfuncId := st.logfuncId },
    ⟨ae2, deriveTaskName f2.name, f2, f2.numParams, f2.doc.getD "", ad2⟩,
    ?_, ?_, ?_, rfl, rfl, rfl, ?_⟩
  · simp [TaskManager.task, hv1]
  · simp [TaskManager.task, hv2]
  · exact assocGet_assocSet_self ..
  · intro m hm
    have hm1 : m ≠ deriveTaskName f1.name := by rw [hname]; exact hm
    rw [assocGet_assocSet_ne _ _ _ _ hm, assocGet_assocSet_ne _ _ _ _ hm1]

/-- Witness for C8: registering two distinct one-parameter callables both
named `hello_world` in sequence leaves the registry mapping `hello-world`
to the second one. -/
theorem duplicate_registration_last_wins_witness :
    ∃ st1 st2 t2,
      TaskManager.task emptyManager [] none false ⟨"hello_world", none, 1⟩ =
        .ok (⟨"hello_world", none, 1⟩, st1) ∧
      TaskManager.task st1 [] none true ⟨"hello_world", some "second", 1⟩ =
        .ok (⟨"hello_world", some "second", 1⟩, st2) ∧
      assocGet st2.tasks (deriveTaskName "hello_world") = some t2 ∧
      t2.func = ⟨"hello_world", some "second", 1⟩ ∧ t2.allow_extra = true ∧
      t2.parserArgs = [] ∧
      (∀ m, m ≠ deriveTaskName "hello_world" →
        assocGet st2.tasks m = assocGet emptyManager.tasks m) := by
  have h := duplicate_registration_last_wins emptyManager ⟨"hello_world", none, 1⟩
    ⟨"hello_world", some "second", 1⟩ [] [] false true (by decide) (by decide) rfl
  simpa using h

end Doot
